import Mathlib

/-!
Verification of the doorstop Reference Resolution Engine
(`doorstop/core/reference_finder.py`) against its specification.

The Python code is shallowly embedded: lines and paths are Lean `String`s
(`String` wraps `List Char`, so everything evaluates in the kernel), the
file system is a pure map from absolute path to either the file's lines or
a read failure, and the three resolvers are structural recursions over the
ordered corpus `tree.vcs.paths`.
-/

set_option autoImplicit false
set_option linter.unusedVariables false

namespace Doorstop

/-! ### Shared word-boundary matching primitive

`find_ref` (and the keyword scans of the other two resolvers) build the
regex `(\b|\W){re.escape(keyword)}(\b|\W)` and test it with `regex.search`
against each line.  Because the keyword is escaped it is matched literally;
the only regex machinery needed is the word-boundary assertion `\b`, the
single-non-word-character class `\W`, and `search`'s scan over all start
positions.  We model word characters as ASCII `[A-Za-z0-9_]`. -/

/-- A regex word character (`\w`): ASCII letter, digit or underscore. -/
def isWordChar (c : Char) : Bool :=
  (('a' ≤ c && c ≤ 'z') || ('A' ≤ c && c ≤ 'Z') || ('0' ≤ c && c ≤ '9') || c = '_')

/-- Is the character at index `i` (0-based) a word character?  Out of
range counts as not a word character, like the virtual edges of the
string in Python's `\b` semantics. -/
def isWordAt (s : List Char) (i : Nat) : Bool :=
  match s[i]? with
  | some c => isWordChar c
  | none => false

/-- Is the character just before position `i` a word character?  At
position 0 the (virtual) preceding character is not a word character. -/
def prevWordAt (s : List Char) (i : Nat) : Bool :=
  match i with
  | 0 => false
  | j + 1 => isWordAt s j

/-- Python `\b` at position `i` (0 ≤ i ≤ length): true iff exactly one of
the neighbouring characters is a word character. -/
def boundaryAt (s : List Char) (i : Nat) : Bool :=
  prevWordAt s i != isWordAt s i

/-- Python `\W` consuming the character at position `i`: there is a
character there and it is not a word character. -/
def nonWordCharAt (s : List Char) (i : Nat) : Bool :=
  match s[i]? with
  | some c => !isWordChar c
  | none => false

/-- The escaped keyword matches literally starting at position `i`. -/
def kwAt (kw s : List Char) (i : Nat) : Bool :=
  kw.isPrefixOf (s.drop i)

/-- The trailing `(\b|\W)` of the shared pattern, at position `j` (just
after the keyword). -/
def rightOk (s : List Char) (j : Nat) : Bool :=
  boundaryAt s j || nonWordCharAt s j

/-- The whole pattern `(\b|\W)kw(\b|\W)` matches with the regex engine
starting at position `i`: the leading alternation either takes the
zero-width `\b` branch or consumes one non-word character. -/
def matchAt (kw s : List Char) (i : Nat) : Bool :=
  (boundaryAt s i && (kwAt kw s i && rightOk s (i + kw.length))) ||
  (nonWordCharAt s i && (kwAt kw s (i + 1) && rightOk s (i + 1 + kw.length)))

/-- `regex.search(line)` succeeds: the pattern matches starting at some
position `0 ≤ i ≤ length`. -/
def lineMatches (kw s : List Char) : Bool :=
  (List.range (s.length + 1)).any (matchAt kw s)

/-- String-level wrapper of `lineMatches`. -/
def lineMatchesS (kw line : String) : Bool :=
  lineMatches kw.toList line.toList

/-- 1-indexed scan for the first matching line, starting at index `n`. -/
def firstMatchFrom (kw : List Char) : List (List Char) → Nat → Option Nat
  | [], _ => none
  | l :: ls, n => if lineMatches kw l then some n else firstMatchFrom kw ls (n + 1)

/-- 1-indexed number of the first line of `lines` on which the shared
word-boundary pattern for `kw` matches (the `enumerate(lines, start=1)`
loop with an early `return`). -/
def firstMatchLine (kw : String) (lines : List String) : Option Nat :=
  firstMatchFrom kw.toList (lines.map String.toList) 1

/-- 1-indexed numbers of all matching lines, starting at index `n`. -/
def matchLinesFrom (kw : List Char) : List (List Char) → Nat → List Nat
  | [], _ => []
  | l :: ls, n =>
    if lineMatches kw l then n :: matchLinesFrom kw ls (n + 1)
    else matchLinesFrom kw ls (n + 1)

/-- 1-indexed numbers of every line of `lines` on which the shared
word-boundary pattern for `kw` matches (the accumulating loop of
`find_pattern_reference`). -/
def matchLines (kw : String) (lines : List String) : List Nat :=
  matchLinesFrom kw.toList (lines.map String.toList) 1

/-! ### Path helpers

`find_ref` uses `os.path.splitext(filename)[-1]`, and
`find_file_reference` uses `os.path.normpath(os.path.join(root, ref_path))`
(POSIX semantics). -/

/-- Split a list at every occurrence of `sep`, like Python `str.split`. -/
def splitOnChar (sep : Char) : List Char → List (List Char)
  | [] => [[]]
  | c :: cs =>
    let r := splitOnChar sep cs
    if c = sep then [] :: r
    else
      match r with
      | [] => [[c]]
      | h :: t => (c :: h) :: t

/-- Index of the last occurrence of `c` (Python `str.rfind`, as an
`Option`). -/
def rfindIdx (c : Char) : List Char → Option Nat
  | [] => none
  | x :: xs =>
    match rfindIdx c xs with
    | some i => some (i + 1)
    | none => if x = c then some 0 else none

/-- `os.path.splitext(filename)[-1]` for a bare file name (no directory
separators): the suffix starting at the last dot, provided some earlier
character is not a dot (so leading dots never start an extension). -/
def splitextExt (filename : String) : String :=
  let cs := filename.toList
  match rfindIdx '.' cs with
  | none => ""
  | some di =>
    if (cs.take di).any (fun ch => ch ≠ '.') then String.mk (cs.drop di) else ""

/-- POSIX `os.path.join(a, b)` for two components. -/
def joinPath (a b : String) : String :=
  match b.toList with
  | '/' :: _ => b
  | _ =>
    if a.toList = [] then a ++ b
    else if a.toList.getLast? = some '/' then a ++ b
    else a ++ "/" ++ b

/-- The component-collapsing fold inside POSIX `os.path.normpath`. -/
def normCompsStep (initialSlashes : Nat) (acc : List (List Char)) (comp : List Char) :
    List (List Char) :=
  if comp = [] || comp = ['.'] then acc
  else if comp ≠ ['.', '.'] || (initialSlashes = 0 && acc = []) ||
      (acc ≠ [] && acc.getLast? = some ['.', '.']) then acc ++ [comp]
  else if acc ≠ [] then acc.dropLast
  else acc

/-- POSIX `os.path.normpath`. -/
def normpath (p : String) : String :=
  let cs := p.toList
  if cs = [] then "."
  else
    let initialSlashes : Nat :=
      match cs with
      | '/' :: '/' :: '/' :: _ => 1
      | '/' :: '/' :: _ => 2
      | '/' :: _ => 1
      | _ => 0
    let comps := splitOnChar '/' cs
    let newComps := comps.foldl (normCompsStep initialSlashes) []
    let joined := List.replicate initialSlashes '/' ++ List.intercalate ['/'] newComps
    if joined = [] then "." else String.mk joined

/-! ### Data model -/

/-- One entry of the ordered corpus `tree.vcs.paths`: the tuple
`(path, filename, relpath)`. -/
structure TrackedFile where
  path : String
  filename : String
  relpath : String
  deriving DecidableEq

/-- The two exceptions `linecache.getlines` can raise in the supported
Python versions (the repository's own `try`/`except` clauses name exactly
these): a `SyntaxError` from a bad coding declaration, and a
`UnicodeDecodeError` from undecodable bytes. -/
inductive ReadErr where
  | codingDecl
  | decodeFailure
  deriving DecidableEq

/-- A pure snapshot of `linecache.getlines`: for each absolute path,
either the file's lines or the exception reading them raises. -/
abbrev FileSys := String → Except ReadErr (List String)

/-- An exception escaping a resolver: either an uncaught
`UnicodeDecodeError` propagated from `linecache.getlines`, or the
`DoorstopError` raised by `find_pattern_reference`.  `DoorstopError`
itself lives in `doorstop/common.py`, which is not among the analyzed
sources; per the spec it is a raised error distinct from any "not found"
result, which the separate `Except.error` constructor captures. -/
inductive PyExc where
  | unicodeDecodeError
  | doorstopError (msg : String)
  deriving DecidableEq

/-- Result of `find_ref` / `find_file_reference`: either a match
`(relpath, lineno)` — `lineno = none` is Python's `(relpath, None)`
filename-identity match — or the not-found sentinel `('', '')`. -/
inductive RefResult where
  | found (relpath : String) (lineno : Option Nat)
  | notFound
  deriving DecidableEq

/-- Result of `find_pattern_reference`: either the accumulated non-empty
`reflist` of `(relpath, lineno)` pairs, or the not-found sentinel
`('', '')` (which is a different Python value than the empty list). -/
inductive PatternResult where
  | matches (l : List (String × Nat))
  | sentinel
  deriving DecidableEq

instance exceptDecidableEq {ε α : Type} [DecidableEq ε] [DecidableEq α] :
    DecidableEq (Except ε α)
  | Except.ok a, Except.ok b =>
    if h : a = b then Decidable.isTrue (by rw [h])
    else Decidable.isFalse (fun hh => h (Except.ok.inj hh))
  | Except.ok _, Except.error _ => Decidable.isFalse (fun hh => Except.noConfusion hh)
  | Except.error _, Except.ok _ => Decidable.isFalse (fun hh => Except.noConfusion hh)
  | Except.error e, Except.error e2 =>
    if h : e = e2 then Decidable.isTrue (by rw [h])
    else Decidable.isFalse (fun hh => h (Except.error.inj hh))

/-! ### The three resolvers -/

/-- `ReferenceFinder.find_ref(ref, tree, item_path)`, with the corpus
`tree.vcs.paths` passed as `paths`, the configurable `settings.SKIP_EXTS`
as `skipExts`, and `linecache.getlines` as `fs`.  Both exceptions from
`getlines` are caught (`except (SyntaxError, UnicodeDecodeError)`), so
this resolver is total. -/
def find_ref (ref : String) (paths : List TrackedFile) (item_path : String)
    (skipExts : List String) (fs : FileSys) : RefResult :=
  match paths with
  | [] => RefResult.notFound
  | f :: rest =>
    if f.path = item_path then find_ref ref rest item_path skipExts fs
    else if f.filename = ref then RefResult.found f.relpath none
    else if splitextExt f.filename ∈ skipExts then find_ref ref rest item_path skipExts fs
    else
      match fs f.path with
      | Except.error _ => find_ref ref rest item_path skipExts fs
      | Except.ok lines =>
        match firstMatchLine ref lines with
        | some n => RefResult.found f.relpath (some n)
        | none => find_ref ref rest item_path skipExts fs

/-- The corpus loop of `find_file_reference`, with the normalized target
path already computed.  Only `SyntaxError` is caught here
(`except SyntaxError`), so a `UnicodeDecodeError` from `getlines`
propagates out as an exception. -/
def fileRefLoop (target item_path : String) (keyword : Option String) (fs : FileSys) :
    List TrackedFile → Except PyExc RefResult
  | [] => Except.ok RefResult.notFound
  | f :: rest =>
    if f.path = item_path then fileRefLoop target item_path keyword fs rest
    else if f.path = target then
      match keyword with
      | none => Except.ok (RefResult.found f.relpath none)
      | some kw =>
        match fs f.path with
        | Except.error ReadErr.codingDecl => fileRefLoop target item_path keyword fs rest
        | Except.error ReadErr.decodeFailure => Except.error PyExc.unicodeDecodeError
        | Except.ok lines =>
          match firstMatchLine kw lines with
          | some n => Except.ok (RefResult.found f.relpath (some n))
          | none => fileRefLoop target item_path keyword fs rest
    else fileRefLoop target item_path keyword fs rest

/-- `ReferenceFinder.find_file_reference(ref_path, root, tree, item_path,
keyword=None)`: normalize `os.path.normpath(os.path.join(root, ref_path))`
once, then loop over the corpus. -/
def find_file_reference (ref_path root : String) (paths : List TrackedFile)
    (item_path : String) (keyword : Option String) (fs : FileSys) :
    Except PyExc RefResult :=
  fileRefLoop (normpath (joinPath root ref_path)) item_path keyword fs paths

/-- The accumulating corpus loop of `find_pattern_reference`.  `rex` is
the compiled path regex's `match` test (`rex.match(path)`); only
`SyntaxError` is caught around `getlines`, so a `UnicodeDecodeError`
propagates and discards the matches collected so far. -/
def patternLoop (rex : String → Bool) (item_path kw : String) (fs : FileSys) :
    List TrackedFile → Except PyExc (List (String × Nat))
  | [] => Except.ok []
  | f :: rest =>
    if f.path = item_path then patternLoop rex item_path kw fs rest
    else if rex f.path then
      match fs f.path with
      | Except.error ReadErr.codingDecl => patternLoop rex item_path kw fs rest
      | Except.error ReadErr.decodeFailure => Except.error PyExc.unicodeDecodeError
      | Except.ok lines =>
        match patternLoop rex item_path kw fs rest with
        | Except.error e => Except.error e
        | Except.ok tl =>
          Except.ok ((matchLines kw lines).map (fun n => (f.relpath, n)) ++ tl)
    else patternLoop rex item_path kw fs rest

/-- `ReferenceFinder.find_pattern_reference(pattern, root, tree,
item_path, keyword)`.  The guard `if keyword == None` raises
`DoorstopError` before anything else; otherwise the accumulated `reflist`
is returned if non-empty, else the `('', '')` sentinel.  `root` is
received but never used, as in the source. -/
def find_pattern_reference (pattern : String) (rex : String → Bool) (root : String)
    (paths : List TrackedFile) (item_path : String) (keyword : Option String)
    (fs : FileSys) : Except PyExc PatternResult :=
  match keyword with
  | none =>
    Except.error (PyExc.doorstopError ("find_pattern_reference without keyword: " ++ pattern))
  | some kw =>
    match patternLoop rex item_path kw fs paths with
    | Except.error e => Except.error e
    | Except.ok [] => Except.ok PatternResult.sentinel
    | Except.ok l => Except.ok (PatternResult.matches l)

/-- Is a pattern-resolver outcome the raised misuse (`DoorstopError`)
signal? -/
def isMisuseError : Except PyExc PatternResult → Bool
  | Except.error (PyExc.doorstopError _) => true
  | _ => false

/-! ### Spec-side descriptions, for refinement statements

These definitions follow the specification's words, to be compared with
the embedded source functions above. -/

/-- Spec description of what one corpus entry can contribute to the
Keyword Resolver: `some none` for a filename-identity match, `some
(some n)` for a content match on first matching line `n`, `none` when the
entry contributes nothing (skip-listed extension, unreadable, or no
matching line). -/
def entryMatch (ref : String) (skipExts : List String) (fs : FileSys)
    (f : TrackedFile) : Option (Option Nat) :=
  if f.filename = ref then some none
  else if splitextExt f.filename ∈ skipExts then none
  else
    match fs f.path with
    | Except.error _ => none
    | Except.ok lines => (firstMatchLine ref lines).map some

/-- Spec description of the Keyword Resolver: the first corpus entry (in
order), the issuer excluded, to satisfy either the filename-identity rule
or the content-match rule is the one returned; if none does, the result
is "not found". -/
def findRefSpec (ref : String) (paths : List TrackedFile) (item_path : String)
    (skipExts : List String) (fs : FileSys) : RefResult :=
  match paths.findSome? (fun f =>
      if f.path = item_path then none
      else (entryMatch ref skipExts fs f).map (fun ln => (f.relpath, ln))) with
  | some (rp, ln) => RefResult.found rp ln
  | none => RefResult.notFound

/-- Spec description of the Path Resolver loop: iterate the corpus in
order, skipping the issuer; for a candidate whose absolute path equals
the target, return `(relpath, none)` immediately when no keyword was
supplied; with a keyword, return the first word-boundary match with its
line number, continuing to scan the remaining corpus when the keyword is
not found in the candidate (and likewise on a load failure); not-found
when the corpus is exhausted. -/
def fileRefSpecLoop (target item_path : String) (keyword : Option String)
    (fs : FileSys) : List TrackedFile → RefResult
  | [] => RefResult.notFound
  | f :: rest =>
    if f.path = item_path then fileRefSpecLoop target item_path keyword fs rest
    else if f.path = target then
      match keyword with
      | none => RefResult.found f.relpath none
      | some kw =>
        match fs f.path with
        | Except.error _ => fileRefSpecLoop target item_path keyword fs rest
        | Except.ok lines =>
          match firstMatchLine kw lines with
          | some n => RefResult.found f.relpath (some n)
          | none => fileRefSpecLoop target item_path keyword fs rest
    else fileRefSpecLoop target item_path keyword fs rest

/-- Spec description of the Path Resolver: normalize `(root, ref_path)`
into one absolute target path, then run the scan. -/
def findFileRefSpec (ref_path root : String) (paths : List TrackedFile)
    (item_path : String) (keyword : Option String) (fs : FileSys) : RefResult :=
  fileRefSpecLoop (normpath (joinPath root ref_path)) item_path keyword fs paths

/-! ### Lemmas about the matching primitive -/

theorem isPrefixOf_append (xs ys : List Char) : xs.isPrefixOf (xs ++ ys) = true := by
  induction xs with
  | nil =>
    cases ys with
    | nil => rfl
    | cons y ys => rfl
  | cons a as ih => simp [List.isPrefixOf, ih]

theorem isPrefixOf_self (xs : List Char) : xs.isPrefixOf xs = true := by
  have h := isPrefixOf_append xs []
  simp only [List.append_nil] at h
  exact h

theorem lineMatches_of_matchAt (kw s : List Char) (i : Nat) (hi : i ≤ s.length)
    (h : matchAt kw s i = true) : lineMatches kw s = true := by
  unfold lineMatches
  rw [List.any_eq_true]
  exact ⟨i, List.mem_range.mpr (Nat.lt_succ_of_le hi), h⟩

theorem prevWordAt_succ (s : List Char) (j : Nat) : prevWordAt s (j + 1) = isWordAt s j :=
  rfl

theorem getElem?_append_self (p : List Char) (c : Char) (t : List Char) :
    (p ++ c :: t)[p.length]? = some c := by
  rw [List.getElem?_append_right (Nat.le_refl _)]
  simp

theorem getElem?_append_add (p : List Char) (c : Char) (t : List Char) (k : Nat) :
    (p ++ c :: t)[p.length + k]? = (c :: t)[k]? := by
  rw [List.getElem?_append_right (Nat.le_add_right _ _)]
  simp

theorem drop_append_succ (p : List Char) (c : Char) (t : List Char) :
    (p ++ c :: t).drop (p.length + 1) = t := by
  rw [show p ++ c :: t = (p ++ [c]) ++ t by simp]
  exact List.drop_left' (by simp)

/-- With a word character in front of it, position 0 carries a word
boundary. -/
theorem boundaryAt_zero (d : Char) (rest : List Char) (hd : isWordChar d = true) :
    boundaryAt (d :: rest) 0 = true := by
  unfold boundaryAt prevWordAt isWordAt
  rw [List.getElem?_cons_zero]
  show (false != isWordChar d) = true
  rw [hd]
  rfl

/-- The keyword `id1` placed at the very start of a line and followed by a
non-word character (or nothing) is found by the shared matcher. -/
theorem lineMatches_start (c : Char) (r : List Char) (h : isWordChar c = false) :
    lineMatches ['i', 'd', '1'] ('i' :: 'd' :: '1' :: c :: r) = true := by
  apply lineMatches_of_matchAt _ _ 0 (Nat.zero_le _)
  unfold matchAt
  rw [Bool.or_eq_true]
  left
  rw [Bool.and_eq_true]
  refine ⟨boundaryAt_zero 'i' _ (by decide), ?_⟩
  rw [Bool.and_eq_true]
  constructor
  · unfold kwAt
    rfl
  · unfold rightOk
    rw [Bool.or_eq_true]
    right
    unfold nonWordCharAt
    rw [show ('i' :: 'd' :: '1' :: c :: r)[0 + (['i', 'd', '1'] : List Char).length]? = some c
      from by simp]
    show (!isWordChar c) = true
    rw [h]
    rfl

/-- The keyword `id1` placed at the very end of a line and preceded by a
non-word character is found by the shared matcher. -/
theorem lineMatches_end (c : Char) (p : List Char) (h : isWordChar c = false) :
    lineMatches ['i', 'd', '1'] (p ++ c :: ['i', 'd', '1']) = true := by
  apply lineMatches_of_matchAt _ _ p.length
  · simp only [List.length_append, List.length_cons]
    omega
  unfold matchAt
  rw [Bool.or_eq_true]
  right
  show (nonWordCharAt (p ++ c :: ['i', 'd', '1']) p.length &&
    (kwAt ['i', 'd', '1'] (p ++ c :: ['i', 'd', '1']) (p.length + 1) &&
      rightOk (p ++ c :: ['i', 'd', '1']) (p.length + 1 + 3))) = true
  rw [Bool.and_eq_true]
  constructor
  · unfold nonWordCharAt
    rw [getElem?_append_self]
    show (!isWordChar c) = true
    rw [h]
    rfl
  rw [Bool.and_eq_true]
  constructor
  · unfold kwAt
    rw [drop_append_succ]
    exact isPrefixOf_self _
  · unfold rightOk
    rw [Bool.or_eq_true]
    left
    rw [show p.length + 1 + 3 = (p.length + 3) + 1 from by omega]
    unfold boundaryAt
    rw [prevWordAt_succ]
    have h1 : isWordAt (p ++ c :: ['i', 'd', '1']) (p.length + 3) = true := by
      unfold isWordAt
      rw [getElem?_append_add]
      rfl
    have h2 : isWordAt (p ++ c :: ['i', 'd', '1']) ((p.length + 3) + 1) = false := by
      unfold isWordAt
      rw [show (p.length + 3) + 1 = p.length + 4 from by omega, getElem?_append_add]
      rfl
    rw [h1, h2]
    rfl

/-! ### Claim theorems -/

/-- C1: the shared word-boundary matcher built from the keyword `id1`
(metacharacters escaped, case-sensitive, a word boundary or non-word
character required on both sides) matches in the line `id1,id2`; it
matches whenever the keyword occurs at line start (the rest of the line
empty or beginning with a non-word character) or at line end (what comes
before ending with a non-word character, or nothing); and it does not
match inside `id10` or inside `xid1`. -/
theorem c1 :
    lineMatchesS "id1" "id1,id2" = true ∧
    lineMatchesS "id1" "id1" = true ∧
    (∀ (c : Char) (r : List Char), isWordChar c = false →
      lineMatches "id1".toList ("id1".toList ++ c :: r) = true) ∧
    (∀ (c : Char) (p : List Char), isWordChar c = false →
      lineMatches "id1".toList (p ++ c :: "id1".toList) = true) ∧
    lineMatchesS "id1" "id10" = false ∧
    lineMatchesS "id1" "xid1" = false := by
  refine ⟨by decide, by decide, ?_, ?_, by decide, by decide⟩
  · intro c r h
    exact lineMatches_start c r h
  · intro c p h
    exact lineMatches_end c p h

/-- Witness for C1: the universally quantified parts applied at the
concrete separator `,` and concrete line remainders. -/
theorem c1_witness :
    isWordChar ',' = false ∧
    lineMatches "id1".toList ("id1".toList ++ ',' :: "id2".toList) = true ∧
    lineMatches "id1".toList ("x".toList ++ ' ' :: "id1".toList) = true :=
  ⟨by decide, c1.2.2.1 ',' "id2".toList (by decide),
    c1.2.2.2.1 ' ' "x".toList (by decide)⟩


/-- The accumulating loop of the Pattern Resolver can fail only by
propagating a `UnicodeDecodeError`; it never raises the misuse
`DoorstopError` itself. -/
theorem patternLoop_no_doorstop (rex : String → Bool) (item_path kw : String)
    (fs : FileSys) (paths : List TrackedFile) (msg : String) :
    patternLoop rex item_path kw fs paths ≠ Except.error (PyExc.doorstopError msg) := by
  induction paths with
  | nil => simp [patternLoop]
  | cons f rest ih =>
    intro h
    unfold patternLoop at h
    split at h
    · exact ih h
    · split at h
      · split at h
        · exact ih h
        · exact PyExc.noConfusion (Except.error.inj h)
        · split at h
          · rename_i e heq
            rw [Except.error.inj h] at heq
            exact ih heq
          · exact Except.noConfusion h
      · exact ih h

/-- C7: calling the Pattern Resolver without the mandatory keyword raises
the `DoorstopError` misuse error immediately, for every corpus and file
system — an outcome distinct from every returned result, so it is never
silently downgraded to "not found" and no partial result is produced. -/
theorem c7 (pattern root item_path : String) (rex : String → Bool)
    (paths : List TrackedFile) (fs : FileSys) :
    find_pattern_reference pattern rex root paths item_path none fs
      = Except.error (PyExc.doorstopError
          ("find_pattern_reference without keyword: " ++ pattern)) ∧
    isMisuseError (find_pattern_reference pattern rex root paths item_path none fs)
      = true :=
  ⟨rfl, rfl⟩

/-- C10: the misuse guard of the Pattern Resolver rejects only an absent
(`None`) keyword.  With the empty string as keyword no `DoorstopError` is
ever raised; the call proceeds to the content scan, and the word-boundary
pattern built from the empty keyword matches ordinary lines — concretely,
a corpus file whose single line is `hello world` yields a match entry, so
the empty keyword is treated as a data query. -/
theorem c10 :
    (∀ (pattern root item_path : String) (rex : String → Bool)
        (paths : List TrackedFile) (fs : FileSys),
      isMisuseError (find_pattern_reference pattern rex root paths item_path (some "") fs)
        = false) ∧
    lineMatchesS "" "hello world" = true ∧
    find_pattern_reference "m" (fun _ => true) "/r"
      [⟨"/r/a.txt", "a.txt", "a.txt"⟩] "/r/i.txt" (some "")
      (fun q => if q = "/r/a.txt" then Except.ok ["hello world"] else Except.ok [])
      = Except.ok (PatternResult.matches [("a.txt", 1)]) := by
  refine ⟨?_, by decide, by decide⟩
  intro pattern root item_path rex paths fs
  have hfp : find_pattern_reference pattern rex root paths item_path (some "") fs
      = match patternLoop rex item_path "" fs paths with
        | Except.error e => Except.error e
        | Except.ok [] => Except.ok PatternResult.sentinel
        | Except.ok l => Except.ok (PatternResult.matches l) := rfl
  rw [hfp]
  cases hp : patternLoop rex item_path "" fs paths with
  | error e =>
    cases e with
    | unicodeDecodeError => rfl
    | doorstopError msg => exact absurd hp (patternLoop_no_doorstop _ _ _ _ _ msg)
  | ok l =>
    cases l with
    | nil => rfl
    | cons x xs => rfl


/-- C2 counterexample: corpus `[a.py, b.txt]` in this order, keyword
`b.txt`, issuer `c.py`, and `a.py` containing the line `see b.txt here`.
Some non-issuer file's name (`b.txt`) equals the keyword exactly and an
earlier-in-order file (`a.py`) contains the keyword as a word-boundary
content match — yet `find_ref` returns the earlier content match
`(a.py, line 1)`, not the filename-identity match `(b.txt, no line)` the
claim promises. -/
theorem c2_counterexample :
    find_ref "b.txt"
      [⟨"/r/a.py", "a.py", "a.py"⟩, ⟨"/r/b.txt", "b.txt", "b.txt"⟩]
      "/r/c.py" [".pyc"]
      (fun q => if q = "/r/a.py" then Except.ok ["see b.txt here"] else Except.ok [])
      = RefResult.found "a.py" (some 1) ∧
    find_ref "b.txt"
      [⟨"/r/a.py", "a.py", "a.py"⟩, ⟨"/r/b.txt", "b.txt", "b.txt"⟩]
      "/r/c.py" [".pyc"]
      (fun q => if q = "/r/a.py" then Except.ok ["see b.txt here"] else Except.ok [])
      ≠ RefResult.found "b.txt" none := by
  constructor
  · decide
  · decide

/-- C2 amended: for every corpus order and keyword, the first corpus
entry (in order, the issuer skipped) to satisfy either the
filename-identity rule (returned with no line number) or the
content-match rule (returned with the first matching line number) is the
one returned, and "not found" results when no entry satisfies either —
so an earlier-in-order content match wins over a later file whose name
equals the keyword.  Formally `find_ref` equals the first-match-wins
description `findRefSpec`. -/
theorem c2_amended (ref item_path : String) (skipExts : List String) (fs : FileSys)
    (paths : List TrackedFile) :
    find_ref ref paths item_path skipExts fs
      = findRefSpec ref paths item_path skipExts fs := by
  induction paths with
  | nil => rfl
  | cons f rest ih =>
    by_cases h1 : f.path = item_path
    · simp [find_ref, findRefSpec, List.findSome?_cons, h1, ih]
    · by_cases h2 : f.filename = ref
      · simp [find_ref, findRefSpec, entryMatch, List.findSome?_cons, h1, h2]
      · by_cases h3 : splitextExt f.filename ∈ skipExts
        · simp [find_ref, findRefSpec, entryMatch, List.findSome?_cons, h1, h2, h3, ih]
        · cases hfs : fs f.path with
          | error e =>
            simp [find_ref, findRefSpec, entryMatch, List.findSome?_cons,
              h1, h2, h3, hfs, ih]
          | ok lines =>
            cases hfm : firstMatchLine ref lines with
            | none =>
              simp [find_ref, findRefSpec, entryMatch, List.findSome?_cons,
                h1, h2, h3, hfs, hfm, ih]
            | some n =>
              simp [find_ref, findRefSpec, entryMatch, List.findSome?_cons,
                h1, h2, h3, hfs, hfm]


/-- Every match returned by `find_ref` stems from a corpus entry other
than the issuing item's file. -/
theorem find_ref_mem (ref item_path : String) (skipExts : List String) (fs : FileSys)
    (paths : List TrackedFile) (rp : String) (ln : Option Nat)
    (h : find_ref ref paths item_path skipExts fs = RefResult.found rp ln) :
    ∃ f ∈ paths, f.path ≠ item_path ∧ f.relpath = rp := by
  induction paths with
  | nil => exact absurd h (by simp [find_ref])
  | cons f rest ih =>
    unfold find_ref at h
    by_cases h1 : f.path = item_path
    · rw [if_pos h1] at h
      obtain ⟨g, hg, hgi, hgr⟩ := ih h
      exact ⟨g, List.mem_cons_of_mem _ hg, hgi, hgr⟩
    · rw [if_neg h1] at h
      by_cases h2 : f.filename = ref
      · rw [if_pos h2] at h
        exact ⟨f, List.mem_cons_self _ _, h1, (RefResult.found.inj h).1⟩
      · rw [if_neg h2] at h
        by_cases h3 : splitextExt f.filename ∈ skipExts
        · rw [if_pos h3] at h
          obtain ⟨g, hg, hgi, hgr⟩ := ih h
          exact ⟨g, List.mem_cons_of_mem _ hg, hgi, hgr⟩
        · rw [if_neg h3] at h
          cases hfs : fs f.path with
          | error e =>
            rw [hfs] at h
            obtain ⟨g, hg, hgi, hgr⟩ := ih h
            exact ⟨g, List.mem_cons_of_mem _ hg, hgi, hgr⟩
          | ok lines =>
            rw [hfs] at h
            have h4 : (match firstMatchLine ref lines with
                | some n => RefResult.found f.relpath (some n)
                | none => find_ref ref rest item_path skipExts fs)
                = RefResult.found rp ln := h
            cases hfm : firstMatchLine ref lines with
            | some n =>
              rw [hfm] at h4
              exact ⟨f, List.mem_cons_self _ _, h1, (RefResult.found.inj h4).1⟩
            | none =>
              rw [hfm] at h4
              obtain ⟨g, hg, hgi, hgr⟩ := ih h4
              exact ⟨g, List.mem_cons_of_mem _ hg, hgi, hgr⟩

/-- Every match returned by the Path Resolver loop stems from a corpus
entry other than the issuing item's file. -/
theorem fileRefLoop_mem (target item_path : String) (keyword : Option String)
    (fs : FileSys) (paths : List TrackedFile) (rp : String) (ln : Option Nat)
    (h : fileRefLoop target item_path keyword fs paths
      = Except.ok (RefResult.found rp ln)) :
    ∃ f ∈ paths, f.path ≠ item_path ∧ f.relpath = rp := by
  induction paths with
  | nil => exact absurd h (by simp [fileRefLoop])
  | cons f rest ih =>
    unfold fileRefLoop at h
    by_cases h1 : f.path = item_path
    · rw [if_pos h1] at h
      obtain ⟨g, hg, hgi, hgr⟩ := ih h
      exact ⟨g, List.mem_cons_of_mem _ hg, hgi, hgr⟩
    · rw [if_neg h1] at h
      by_cases h2 : f.path = target
      · rw [if_pos h2] at h
        cases keyword with
        | none =>
          exact ⟨f, List.mem_cons_self _ _, h1,
            (RefResult.found.inj (Except.ok.inj h)).1⟩
        | some kw =>
          cases hfs : fs f.path with
          | error e =>
            cases e with
            | codingDecl =>
              rw [hfs] at h
              obtain ⟨g, hg, hgi, hgr⟩ := ih h
              exact ⟨g, List.mem_cons_of_mem _ hg, hgi, hgr⟩
            | decodeFailure =>
              rw [hfs] at h
              exact absurd h (by simp)
          | ok lines =>
            rw [hfs] at h
            have h4 : (match firstMatchLine kw lines with
                | some n => Except.ok (RefResult.found f.relpath (some n))
                | none => fileRefLoop target item_path (some kw) fs rest)
                = Except.ok (RefResult.found rp ln) := h
            cases hfm : firstMatchLine kw lines with
            | some n =>
              rw [hfm] at h4
              exact ⟨f, List.mem_cons_self _ _, h1,
                (RefResult.found.inj (Except.ok.inj h4)).1⟩
            | none =>
              rw [hfm] at h4
              obtain ⟨g, hg, hgi, hgr⟩ := ih h4
              exact ⟨g, List.mem_cons_of_mem _ hg, hgi, hgr⟩
      · rw [if_neg h2] at h
        obtain ⟨g, hg, hgi, hgr⟩ := ih h
        exact ⟨g, List.mem_cons_of_mem _ hg, hgi, hgr⟩

/-- Every entry of a list returned by the Pattern Resolver loop stems
from a corpus entry other than the issuing item's file. -/
theorem patternLoop_mem (rex : String → Bool) (item_path kw : String) (fs : FileSys)
    (paths : List TrackedFile) (l : List (String × Nat))
    (h : patternLoop rex item_path kw fs paths = Except.ok l) :
    ∀ pr ∈ l, ∃ f ∈ paths, f.path ≠ item_path ∧ f.relpath = pr.1 := by
  induction paths generalizing l with
  | nil =>
    intro pr hpr
    rw [show patternLoop rex item_path kw fs [] = Except.ok [] from rfl] at h
    rw [← Except.ok.inj h] at hpr
    exact absurd hpr (List.not_mem_nil pr)
  | cons f rest ih =>
    intro pr hpr
    unfold patternLoop at h
    by_cases h1 : f.path = item_path
    · rw [if_pos h1] at h
      obtain ⟨g, hg, hgi, hgr⟩ := ih _ h pr hpr
      exact ⟨g, List.mem_cons_of_mem _ hg, hgi, hgr⟩
    · rw [if_neg h1] at h
      by_cases h2 : rex f.path = true
      · rw [if_pos h2] at h
        cases hfs : fs f.path with
        | error e =>
          cases e with
          | codingDecl =>
            rw [hfs] at h
            obtain ⟨g, hg, hgi, hgr⟩ := ih _ h pr hpr
            exact ⟨g, List.mem_cons_of_mem _ hg, hgi, hgr⟩
          | decodeFailure =>
            rw [hfs] at h
            exact absurd h (by simp)
        | ok lines =>
          rw [hfs] at h
          cases hq : patternLoop rex item_path kw fs rest with
          | error e2 =>
            rw [hq] at h
            exact absurd h (by simp)
          | ok tl =>
            rw [hq] at h
            rw [← Except.ok.inj h] at hpr
            rcases List.mem_append.mp hpr with hmap | htl
            · obtain ⟨n, hn, hpr1⟩ := List.mem_map.mp hmap
              exact ⟨f, List.mem_cons_self _ _, h1, by rw [← hpr1]⟩
            · obtain ⟨g, hg, hgi, hgr⟩ := ih _ hq pr htl
              exact ⟨g, List.mem_cons_of_mem _ hg, hgi, hgr⟩
      · rw [if_neg h2] at h
        obtain ⟨g, hg, hgi, hgr⟩ := ih _ h pr hpr
        exact ⟨g, List.mem_cons_of_mem _ hg, hgi, hgr⟩

/-- C9: none of the three resolvers ever returns a match whose file is
the issuing item's own file: every returned match (and every entry of a
returned pattern match list) stems from a corpus entry whose absolute
path differs from the issuing file's path — even when the issuer is the
only file satisfying the query. -/
theorem c9 (ref ref_path pattern root item_path : String) (skipExts : List String)
    (rex : String → Bool) (kw1 kw2 : Option String) (fs1 fs2 fs3 : FileSys)
    (paths : List TrackedFile) (rp1 : String) (ln1 : Option Nat)
    (rp2 : String) (ln2 : Option Nat) (l : List (String × Nat))
    (h1 : find_ref ref paths item_path skipExts fs1 = RefResult.found rp1 ln1)
    (h2 : find_file_reference ref_path root paths item_path kw1 fs2
      = Except.ok (RefResult.found rp2 ln2))
    (h3 : find_pattern_reference pattern rex root paths item_path kw2 fs3
      = Except.ok (PatternResult.matches l)) :
    (∃ f ∈ paths, f.path ≠ item_path ∧ f.relpath = rp1) ∧
    (∃ f ∈ paths, f.path ≠ item_path ∧ f.relpath = rp2) ∧
    (∀ pr ∈ l, ∃ f ∈ paths, f.path ≠ item_path ∧ f.relpath = pr.1) := by
  refine ⟨find_ref_mem _ _ _ _ _ _ _ h1, fileRefLoop_mem _ _ _ _ _ _ _ h2, ?_⟩
  cases kw2 with
  | none => exact absurd h3 (by simp [find_pattern_reference])
  | some kw =>
    unfold find_pattern_reference at h3
    have h5 : (match patternLoop rex item_path kw fs3 paths with
        | Except.error e => Except.error e
        | Except.ok [] => Except.ok PatternResult.sentinel
        | Except.ok l => Except.ok (PatternResult.matches l))
        = Except.ok (PatternResult.matches l) := h3
    cases hq : patternLoop rex item_path kw fs3 paths with
    | error e =>
      rw [hq] at h5
      exact absurd h5 (by simp)
    | ok l2 =>
      rw [hq] at h5
      cases l2 with
      | nil => exact absurd (Except.ok.inj h5) (by simp)
      | cons x xs =>
        rw [PatternResult.matches.inj (Except.ok.inj h5)] at hq
        exact patternLoop_mem _ _ _ _ _ _ hq

/-- Witness for C9: a one-file corpus on which all three resolvers
produce a match, applied to the theorem. -/
theorem c9_witness :
    (∃ f ∈ ([⟨"/r/a.txt", "a.txt", "a.txt"⟩] : List TrackedFile),
      f.path ≠ "/r/i.txt" ∧ f.relpath = "a.txt") ∧
    (∃ f ∈ ([⟨"/r/a.txt", "a.txt", "a.txt"⟩] : List TrackedFile),
      f.path ≠ "/r/i.txt" ∧ f.relpath = "a.txt") ∧
    (∀ pr ∈ ([("a.txt", 1)] : List (String × Nat)),
      ∃ f ∈ ([⟨"/r/a.txt", "a.txt", "a.txt"⟩] : List TrackedFile),
        f.path ≠ "/r/i.txt" ∧ f.relpath = pr.1) :=
  c9 "k" "a.txt" "p" "/r" "/r/i.txt" [".pyc"] (fun _ => true)
    (some "k") (some "k")
    (fun q => if q = "/r/a.txt" then Except.ok ["k"] else Except.ok [])
    (fun q => if q = "/r/a.txt" then Except.ok ["k"] else Except.ok [])
    (fun q => if q = "/r/a.txt" then Except.ok ["k"] else Except.ok [])
    [⟨"/r/a.txt", "a.txt", "a.txt"⟩] "a.txt" (some 1) "a.txt" (some 1)
    [("a.txt", 1)] (by decide) (by decide) (by decide)


/-- C3 counterexample: a corpus whose only candidate file raises a
text-decoding failure (`UnicodeDecodeError`).  The Path Resolver (its
target being that file, with a keyword) and the Pattern Resolver (its
pattern matching that file) both propagate the exception instead of
skipping the candidate and returning not-found, because their
`try`/`except` clauses catch only `SyntaxError`. -/
theorem c3_counterexample :
    find_file_reference "a.txt" "/r" [⟨"/r/a.txt", "a.txt", "a.txt"⟩] "/r/i.txt"
      (some "k") (fun _ => Except.error ReadErr.decodeFailure)
      = Except.error PyExc.unicodeDecodeError ∧
    find_pattern_reference "p" (fun _ => true) "/r" [⟨"/r/a.txt", "a.txt", "a.txt"⟩]
      "/r/i.txt" (some "k") (fun _ => Except.error ReadErr.decodeFailure)
      = Except.error PyExc.unicodeDecodeError :=
  ⟨rfl, rfl⟩

/-- Under an everywhere-`SyntaxError` file system the Path Resolver loop
skips every candidate and reports not-found. -/
theorem fileRefLoop_allSyntax (target item_path kw : String) (fs : FileSys)
    (paths : List TrackedFile)
    (hs : ∀ f ∈ paths, f.path ≠ item_path → fs f.path = Except.error ReadErr.codingDecl) :
    fileRefLoop target item_path (some kw) fs paths = Except.ok RefResult.notFound := by
  induction paths with
  | nil => rfl
  | cons f rest ih =>
    have ihr := ih (fun g hg hgi => hs g (List.mem_cons_of_mem _ hg) hgi)
    unfold fileRefLoop
    by_cases h1 : f.path = item_path
    · rw [if_pos h1]
      exact ihr
    · rw [if_neg h1]
      by_cases h2 : f.path = target
      · rw [if_pos h2, hs f (List.mem_cons_self _ _) h1]
        exact ihr
      · rw [if_neg h2]
        exact ihr

/-- Under an everywhere-`SyntaxError` file system the Pattern Resolver
loop skips every candidate and accumulates nothing. -/
theorem patternLoop_allSyntax (rex : String → Bool) (item_path kw : String)
    (fs : FileSys) (paths : List TrackedFile)
    (hs : ∀ f ∈ paths, f.path ≠ item_path → fs f.path = Except.error ReadErr.codingDecl) :
    patternLoop rex item_path kw fs paths = Except.ok [] := by
  induction paths with
  | nil => rfl
  | cons f rest ih =>
    have ihr := ih (fun g hg hgi => hs g (List.mem_cons_of_mem _ hg) hgi)
    unfold patternLoop
    by_cases h1 : f.path = item_path
    · rw [if_pos h1]
      exact ihr
    · rw [if_neg h1]
      by_cases h2 : rex f.path = true
      · rw [if_pos h2, hs f (List.mem_cons_self _ _) h1]
        exact ihr
      · rw [if_neg h2]
        exact ihr

/-- When every non-issuer candidate is unreadable (either failure kind)
and none has the keyword as its file name, `find_ref` skips them all and
reports not-found. -/
theorem find_ref_allUnreadable (ref item_path : String) (skipExts : List String)
    (fs : FileSys) (paths : List TrackedFile)
    (hr : ∀ f ∈ paths, f.path ≠ item_path →
      (∃ e, fs f.path = Except.error e) ∧ f.filename ≠ ref) :
    find_ref ref paths item_path skipExts fs = RefResult.notFound := by
  induction paths with
  | nil => rfl
  | cons f rest ih =>
    have ihr := ih (fun g hg hgi => hr g (List.mem_cons_of_mem _ hg) hgi)
    unfold find_ref
    by_cases h1 : f.path = item_path
    · rw [if_pos h1]
      exact ihr
    · rw [if_neg h1]
      obtain ⟨⟨e, hfe⟩, hfn⟩ := hr f (List.mem_cons_self _ _) h1
      rw [if_neg hfn]
      by_cases h3 : splitextExt f.filename ∈ skipExts
      · rw [if_pos h3]
        exact ihr
      · rw [if_neg h3, hfe]
        exact ihr

/-- C3 amended: an unreadable candidate is skipped by `find_ref` for both
failure kinds (its `except` clause catches `SyntaxError` and
`UnicodeDecodeError`), while `find_file_reference` and
`find_pattern_reference` skip only `SyntaxError` failures (a
`UnicodeDecodeError` propagates out of them, as the counterexample
shows).  When every non-issuer candidate is skipped this way and nothing
matches, the results are the not-found sentinel (Keyword/Path) and the
sentinel no-matches result (Pattern). -/
theorem c3_amended (paths : List TrackedFile)
    (ref ref_path root item_path kw pattern : String) (skipExts : List String)
    (rex : String → Bool) (fsAny fsSyn : FileSys)
    (hr : ∀ f ∈ paths, f.path ≠ item_path →
      (∃ e, fsAny f.path = Except.error e) ∧ f.filename ≠ ref)
    (hs : ∀ f ∈ paths, f.path ≠ item_path →
      fsSyn f.path = Except.error ReadErr.codingDecl) :
    find_ref ref paths item_path skipExts fsAny = RefResult.notFound ∧
    find_file_reference ref_path root paths item_path (some kw) fsSyn
      = Except.ok RefResult.notFound ∧
    find_pattern_reference pattern rex root paths item_path (some kw) fsSyn
      = Except.ok PatternResult.sentinel := by
  refine ⟨find_ref_allUnreadable _ _ _ _ _ hr, ?_, ?_⟩
  · exact fileRefLoop_allSyntax _ _ _ _ _ hs
  · unfold find_pattern_reference
    show (match patternLoop rex item_path kw fsSyn paths with
      | Except.error e => Except.error e
      | Except.ok [] => Except.ok PatternResult.sentinel
      | Except.ok l => Except.ok (PatternResult.matches l))
      = Except.ok PatternResult.sentinel
    rw [patternLoop_allSyntax rex item_path kw fsSyn paths hs]

/-- Witness for C3 amended: a one-file corpus that always fails with a
decode error for `find_ref` and always with a syntax error for the other
two resolvers. -/
theorem c3_witness :
    find_ref "k" [⟨"/r/a.txt", "a.txt", "a.txt"⟩] "/r/i.txt" [".pyc"]
      (fun _ => Except.error ReadErr.decodeFailure) = RefResult.notFound ∧
    find_file_reference "a.txt" "/r" [⟨"/r/a.txt", "a.txt", "a.txt"⟩] "/r/i.txt"
      (some "k") (fun _ => Except.error ReadErr.codingDecl)
      = Except.ok RefResult.notFound ∧
    find_pattern_reference "p" (fun _ => true) "/r"
      [⟨"/r/a.txt", "a.txt", "a.txt"⟩] "/r/i.txt" (some "k")
      (fun _ => Except.error ReadErr.codingDecl)
      = Except.ok PatternResult.sentinel :=
  c3_amended [⟨"/r/a.txt", "a.txt", "a.txt"⟩] "k" "a.txt" "/r" "/r/i.txt" "k" "p"
    [".pyc"] (fun _ => true)
    (fun _ => Except.error ReadErr.decodeFailure)
    (fun _ => Except.error ReadErr.codingDecl)
    (by
      intro f hf hni
      rw [List.mem_singleton] at hf
      subst hf
      exact ⟨⟨ReadErr.decodeFailure, rfl⟩, by decide⟩)
    (by
      intro f hf hni
      rfl)


/-- C4 counterexample: the extension `.pyc` is in the configured skip-set
and `splitextExt "e.pyc" = ".pyc"`, yet the Pattern Resolver and the Path
Resolver both return a content match (with a line number) found inside
the file `e.pyc`: only `find_ref` consults the skip-set, so the claim
fails for "every resolver". -/
theorem c4_counterexample :
    splitextExt "e.pyc" = ".pyc" ∧ ".pyc" ∈ ([".pyc"] : List String) ∧
    find_pattern_reference "p" (fun _ => true) "/r"
      [⟨"/r/e.pyc", "e.pyc", "e.pyc"⟩] "/r/i.txt" (some "k")
      (fun q => if q = "/r/e.pyc" then Except.ok ["k here"] else Except.ok [])
      = Except.ok (PatternResult.matches [("e.pyc", 1)]) ∧
    find_file_reference "e.pyc" "/r" [⟨"/r/e.pyc", "e.pyc", "e.pyc"⟩] "/r/i.txt"
      (some "k")
      (fun q => if q = "/r/e.pyc" then Except.ok ["k here"] else Except.ok [])
      = Except.ok (RefResult.found "e.pyc" (some 1)) :=
  ⟨rfl, by decide, rfl, rfl⟩

/-- When every corpus entry's extension is in the skip-set, `find_ref`
never returns a content match (a result carrying a line number), whatever
the files contain. -/
theorem find_ref_skipAll (ref item_path : String) (skipExts : List String)
    (fs : FileSys) (paths : List TrackedFile)
    (hall : ∀ g ∈ paths, splitextExt g.filename ∈ skipExts) :
    ∀ rp n, find_ref ref paths item_path skipExts fs ≠ RefResult.found rp (some n) := by
  induction paths with
  | nil =>
    intro rp n h
    exact RefResult.noConfusion h
  | cons g rest ih =>
    intro rp n h
    have ihr := ih (fun g2 hg2 => hall g2 (List.mem_cons_of_mem _ hg2)) rp n
    unfold find_ref at h
    by_cases h1 : g.path = item_path
    · rw [if_pos h1] at h
      exact ihr h
    · rw [if_neg h1] at h
      by_cases h2 : g.filename = ref
      · rw [if_pos h2] at h
        exact Option.noConfusion (RefResult.found.inj h).2
      · rw [if_neg h2] at h
        rw [if_pos (hall g (List.mem_cons_self _ _))] at h
        exact ihr h

/-- C4 amended: the Keyword Resolver (`find_ref`) never produces a
content match from a corpus whose files all carry skip-listed extensions,
while such a file remains eligible for the filename-identity match
(returned without a line number) when its name equals the keyword; the
Path and Pattern Resolvers, however, do not consult the skip-set at all
(see the counterexample). -/
theorem c4_amended (ref item_path : String) (skipExts : List String) (fs : FileSys)
    (paths : List TrackedFile) (f : TrackedFile) (rest : List TrackedFile)
    (hall : ∀ g ∈ paths, splitextExt g.filename ∈ skipExts)
    (hf : f.filename = ref) (hfi : f.path ≠ item_path) :
    (∀ rp n, find_ref ref paths item_path skipExts fs
      ≠ RefResult.found rp (some n)) ∧
    find_ref ref (f :: rest) item_path skipExts fs
      = RefResult.found f.relpath none := by
  refine ⟨find_ref_skipAll ref item_path skipExts fs paths hall, ?_⟩
  unfold find_ref
  rw [if_neg hfi, if_pos hf]

/-- Witness for C4 amended: a skip-listed file whose content holds the
keyword yields no content match, and a skip-listed file whose name equals
the keyword is still returned as a filename-identity match. -/
theorem c4_witness :
    find_ref "b.pyc" [⟨"/r/e.pyc", "e.pyc", "e.pyc"⟩] "/r/i.txt" [".pyc"]
      (fun q => if q = "/r/e.pyc" then Except.ok ["see b.pyc here"] else Except.ok [])
      ≠ RefResult.found "e.pyc" (some 1) ∧
    find_ref "b.pyc" (⟨"/r/b.pyc", "b.pyc", "b.pyc"⟩ :: []) "/r/i.txt" [".pyc"]
      (fun q => if q = "/r/e.pyc" then Except.ok ["see b.pyc here"] else Except.ok [])
      = RefResult.found "b.pyc" none :=
  ⟨(c4_amended "b.pyc" "/r/i.txt" [".pyc"]
      (fun q => if q = "/r/e.pyc" then Except.ok ["see b.pyc here"] else Except.ok [])
      [⟨"/r/e.pyc", "e.pyc", "e.pyc"⟩] ⟨"/r/b.pyc", "b.pyc", "b.pyc"⟩ []
      (by decide) (by decide) (by decide)).1 "e.pyc" 1,
    (c4_amended "b.pyc" "/r/i.txt" [".pyc"]
      (fun q => if q = "/r/e.pyc" then Except.ok ["see b.pyc here"] else Except.ok [])
      [⟨"/r/e.pyc", "e.pyc", "e.pyc"⟩] ⟨"/r/b.pyc", "b.pyc", "b.pyc"⟩ []
      (by decide) (by decide) (by decide)).2⟩


/-- A corpus entry that is the issuer or does not match the path pattern
contributes nothing to the Pattern Resolver loop. -/
theorem patternLoop_skip (rex : String → Bool) (item_path kw : String) (fs : FileSys)
    (f : TrackedFile) (rest : List TrackedFile)
    (h : f.path = item_path ∨ rex f.path = false) :
    patternLoop rex item_path kw fs (f :: rest) = patternLoop rex item_path kw fs rest := by
  rcases h with h | h
  · simp [patternLoop, h]
  · by_cases h1 : f.path = item_path
    · simp [patternLoop, h1]
    · simp [patternLoop, h1, h]

/-- A block of issuer-or-non-matching entries contributes nothing to the
Pattern Resolver loop. -/
theorem patternLoop_append_skip (rex : String → Bool) (item_path kw : String)
    (fs : FileSys) (gs rest : List TrackedFile)
    (h : ∀ g ∈ gs, g.path = item_path ∨ rex g.path = false) :
    patternLoop rex item_path kw fs (gs ++ rest)
      = patternLoop rex item_path kw fs rest := by
  induction gs with
  | nil => rfl
  | cons g gs ih =>
    rw [List.cons_append, patternLoop_skip rex item_path kw fs g _
        (h g (List.mem_cons_self _ _)),
      ih (fun x hx => h x (List.mem_cons_of_mem _ hx))]

/-- Unfolding the Pattern Resolver loop at a readable, pattern-matching,
non-issuer entry: its matching lines are prepended to the rest. -/
theorem patternLoop_cons_ok (rex : String → Bool) (item_path kw : String)
    (fs : FileSys) (f : TrackedFile) (rest : List TrackedFile) (lines : List String)
    (h1 : f.path ≠ item_path) (h2 : rex f.path = true)
    (h3 : fs f.path = Except.ok lines) :
    patternLoop rex item_path kw fs (f :: rest)
      = match patternLoop rex item_path kw fs rest with
        | Except.error e => Except.error e
        | Except.ok tl =>
          Except.ok ((matchLines kw lines).map (fun n => (f.relpath, n)) ++ tl) := by
  simp [patternLoop, h1, h2, h3]

/-- C5: for every corpus holding exactly two pattern-matching readable
files (all other entries being the issuer or not matching the path
pattern), each containing the keyword on exactly two lines, the Pattern
Resolver returns exactly four `(relativePath, lineNumber)` entries, one
per matching line per matching file, ordered first by corpus position of
the file and then by ascending line number — no early return after the
first match. -/
theorem c5 (pattern root item_path kw : String) (rex : String → Bool) (fs : FileSys)
    (pre mid post : List TrackedFile) (f1 f2 : TrackedFile) (l1 l2 : List String)
    (a1 a2 b1 b2 : Nat)
    (hpre : ∀ g ∈ pre, g.path = item_path ∨ rex g.path = false)
    (hmid : ∀ g ∈ mid, g.path = item_path ∨ rex g.path = false)
    (hpost : ∀ g ∈ post, g.path = item_path ∨ rex g.path = false)
    (h1i : f1.path ≠ item_path) (h1r : rex f1.path = true)
    (h1f : fs f1.path = Except.ok l1) (h1m : matchLines kw l1 = [a1, a2])
    (h2i : f2.path ≠ item_path) (h2r : rex f2.path = true)
    (h2f : fs f2.path = Except.ok l2) (h2m : matchLines kw l2 = [b1, b2]) :
    find_pattern_reference pattern rex root (pre ++ f1 :: (mid ++ f2 :: post))
      item_path (some kw) fs
      = Except.ok (PatternResult.matches
          [(f1.relpath, a1), (f1.relpath, a2), (f2.relpath, b1), (f2.relpath, b2)]) := by
  have hpost2 : patternLoop rex item_path kw fs post = Except.ok [] := by
    have hp := patternLoop_append_skip rex item_path kw fs post [] hpost
    rw [List.append_nil] at hp
    rw [hp]
    rfl
  have h2c : patternLoop rex item_path kw fs (f2 :: post)
      = Except.ok [(f2.relpath, b1), (f2.relpath, b2)] := by
    rw [patternLoop_cons_ok rex item_path kw fs f2 post l2 h2i h2r h2f, hpost2, h2m]
    rfl
  have h1c : patternLoop rex item_path kw fs (f1 :: (mid ++ f2 :: post))
      = Except.ok [(f1.relpath, a1), (f1.relpath, a2),
          (f2.relpath, b1), (f2.relpath, b2)] := by
    rw [patternLoop_cons_ok rex item_path kw fs f1 _ l1 h1i h1r h1f,
      patternLoop_append_skip rex item_path kw fs mid _ hmid, h2c, h1m]
    rfl
  unfold find_pattern_reference
  show (match patternLoop rex item_path kw fs (pre ++ f1 :: (mid ++ f2 :: post)) with
    | Except.error e => Except.error e
    | Except.ok [] => Except.ok PatternResult.sentinel
    | Except.ok l => Except.ok (PatternResult.matches l)) = _
  rw [patternLoop_append_skip rex item_path kw fs pre _ hpre, h1c]

/-- Witness for C5: two markdown files each holding the keyword on two of
their lines produce the four entries in corpus-then-line order. -/
theorem c5_witness :
    find_pattern_reference "p" (fun _ => true) "/r"
      ([] ++ ⟨"/r/a.md", "a.md", "a.md"⟩ :: ([] ++ ⟨"/r/b.md", "b.md", "b.md"⟩ :: []))
      "/r/i.txt" (some "k")
      (fun q => if q = "/r/a.md" then Except.ok ["k a", "b k", "x"]
        else if q = "/r/b.md" then Except.ok ["k", "z k"] else Except.ok [])
      = Except.ok (PatternResult.matches
          [("a.md", 1), ("a.md", 2), ("b.md", 1), ("b.md", 2)]) :=
  c5 "p" "/r" "/r/i.txt" "k" (fun _ => true)
    (fun q => if q = "/r/a.md" then Except.ok ["k a", "b k", "x"]
      else if q = "/r/b.md" then Except.ok ["k", "z k"] else Except.ok [])
    [] [] [] ⟨"/r/a.md", "a.md", "a.md"⟩ ⟨"/r/b.md", "b.md", "b.md"⟩
    ["k a", "b k", "x"] ["k", "z k"] 1 2 1 2
    (by decide) (by decide) (by decide)
    (by decide) (by decide) (by decide) (by decide)
    (by decide) (by decide) (by decide) (by decide)


/-- When every corpus entry is the issuer, fails the path pattern, fails
loading with a `SyntaxError`, or loads with no matching line, the Pattern
Resolver loop accumulates nothing. -/
theorem patternLoop_noMatches (rex : String → Bool) (item_path kw : String)
    (fs : FileSys) (paths : List TrackedFile)
    (h : ∀ f ∈ paths, f.path = item_path ∨ rex f.path = false ∨
      fs f.path = Except.error ReadErr.codingDecl ∨
      (∃ lines, fs f.path = Except.ok lines ∧ matchLines kw lines = [])) :
    patternLoop rex item_path kw fs paths = Except.ok [] := by
  induction paths with
  | nil => rfl
  | cons f rest ih =>
    have ihr := ih (fun g hg => h g (List.mem_cons_of_mem _ hg))
    rcases h f (List.mem_cons_self _ _) with hc | hc | hc | ⟨lines, hfs, hml⟩
    · rw [patternLoop_skip rex item_path kw fs f rest (Or.inl hc)]
      exact ihr
    · rw [patternLoop_skip rex item_path kw fs f rest (Or.inr hc)]
      exact ihr
    · by_cases h1 : f.path = item_path
      · rw [patternLoop_skip rex item_path kw fs f rest (Or.inl h1)]
        exact ihr
      · cases hrx : rex f.path with
        | false =>
          rw [patternLoop_skip rex item_path kw fs f rest (Or.inr hrx)]
          exact ihr
        | true => simp [patternLoop, h1, hrx, hc, ihr]
    · by_cases h1 : f.path = item_path
      · rw [patternLoop_skip rex item_path kw fs f rest (Or.inl h1)]
        exact ihr
      · cases hrx : rex f.path with
        | false =>
          rw [patternLoop_skip rex item_path kw fs f rest (Or.inr hrx)]
          exact ihr
        | true => simp [patternLoop, h1, hrx, hfs, hml, ihr]

/-- C6 counterexample: on a corpus with no candidate matching the
pattern-plus-keyword query, `find_pattern_reference` returns the
`('', '')` sentinel, which is a different value from the empty sequence
of `ReferenceMatch` entries the claim promises. -/
theorem c6_counterexample :
    find_pattern_reference "p" (fun _ => false) "/r" [] "/r/i.txt" (some "k")
      (fun _ => Except.ok []) = Except.ok PatternResult.sentinel ∧
    (Except.ok PatternResult.sentinel : Except PyExc PatternResult)
      ≠ Except.ok (PatternResult.matches []) :=
  ⟨rfl, by decide⟩

/-- C6 amended: when no candidate file both matches the path pattern and
contains a word-boundary occurrence of the keyword (each entry being the
issuer, not pattern-matching, unreadable by `SyntaxError`, or free of
matching lines), `find_pattern_reference` returns the same two-empty-
string not-found sentinel as the other resolvers — a value distinct from
every `reflist` of matches, including the empty list. -/
theorem c6_amended (pattern root item_path kw : String) (rex : String → Bool)
    (fs : FileSys) (paths : List TrackedFile)
    (h : ∀ f ∈ paths, f.path = item_path ∨ rex f.path = false ∨
      fs f.path = Except.error ReadErr.codingDecl ∨
      (∃ lines, fs f.path = Except.ok lines ∧ matchLines kw lines = [])) :
    find_pattern_reference pattern rex root paths item_path (some kw) fs
      = Except.ok PatternResult.sentinel ∧
    ∀ l : List (String × Nat),
      (Except.ok PatternResult.sentinel : Except PyExc PatternResult)
        ≠ Except.ok (PatternResult.matches l) := by
  constructor
  · unfold find_pattern_reference
    show (match patternLoop rex item_path kw fs paths with
      | Except.error e => Except.error e
      | Except.ok [] => Except.ok PatternResult.sentinel
      | Except.ok l => Except.ok (PatternResult.matches l))
      = Except.ok PatternResult.sentinel
    rw [patternLoop_noMatches rex item_path kw fs paths h]
  · intro l hl
    exact PatternResult.noConfusion (Except.ok.inj hl)

/-- Witness for C6 amended: a one-file corpus whose file matches the
pattern and is readable but holds no occurrence of the keyword. -/
theorem c6_witness :
    find_pattern_reference "p" (fun _ => true) "/r"
      [⟨"/r/a.txt", "a.txt", "a.txt"⟩] "/r/i.txt" (some "needle")
      (fun _ => Except.ok ["plain text"]) = Except.ok PatternResult.sentinel ∧
    (Except.ok PatternResult.sentinel : Except PyExc PatternResult)
      ≠ Except.ok (PatternResult.matches []) :=
  ⟨(c6_amended "p" "/r" "/r/i.txt" "needle" (fun _ => true)
      (fun _ => Except.ok ["plain text"]) [⟨"/r/a.txt", "a.txt", "a.txt"⟩]
      (by
        intro f hf
        exact Or.inr (Or.inr (Or.inr ⟨["plain text"], rfl, by decide⟩)))).1,
    (c6_amended "p" "/r" "/r/i.txt" "needle" (fun _ => true)
      (fun _ => Except.ok ["plain text"]) [⟨"/r/a.txt", "a.txt", "a.txt"⟩]
      (by
        intro f hf
        exact Or.inr (Or.inr (Or.inr ⟨["plain text"], rfl, by decide⟩)))).2 []⟩

/-- On a corpus none of whose files fails with a decode error, the
embedded Path Resolver loop agrees with its specification description. -/
theorem fileRefLoop_spec (target item_path : String) (keyword : Option String)
    (fs : FileSys) (paths : List TrackedFile)
    (h : ∀ f ∈ paths, fs f.path ≠ Except.error ReadErr.decodeFailure) :
    fileRefLoop target item_path keyword fs paths
      = Except.ok (fileRefSpecLoop target item_path keyword fs paths) := by
  induction paths with
  | nil => rfl
  | cons f rest ih =>
    have ihr := ih (fun g hg => h g (List.mem_cons_of_mem _ hg))
    by_cases h1 : f.path = item_path
    · simp [fileRefLoop, fileRefSpecLoop, h1, ihr]
    · by_cases h2 : f.path = target
      · subst h2
        cases keyword with
        | none => simp [fileRefLoop, fileRefSpecLoop, h1]
        | some kw =>
          cases hfs : fs f.path with
          | error e =>
            cases e with
            | codingDecl => simp [fileRefLoop, fileRefSpecLoop, h1, hfs, ihr]
            | decodeFailure => exact absurd hfs (h f (List.mem_cons_self _ _))
          | ok lines =>
            cases hfm : firstMatchLine kw lines with
            | some n => simp [fileRefLoop, fileRefSpecLoop, h1, hfs, hfm]
            | none => simp [fileRefLoop, fileRefSpecLoop, h1, hfs, hfm, ihr]
      · simp [fileRefLoop, fileRefSpecLoop, h1, h2, ihr]

/-- C8: on every corpus whose candidate loads never fail by text
decoding, `find_file_reference` normalizes `(root, relativePath)` into
one absolute target path and scans the corpus in order skipping the
issuer, returning `(relpath, none)` immediately at the target when no
keyword was supplied, `(relpath, n)` with `n` the 1-indexed first line
matching the keyword's word-boundary pattern when one was, continuing
through the remaining corpus when the keyword is not found in the
candidate, and the not-found result when the corpus is exhausted —
formally it agrees with the spec description `findFileRefSpec`. -/
theorem c8 (ref_path root item_path : String) (keyword : Option String)
    (fs : FileSys) (paths : List TrackedFile)
    (h : ∀ f ∈ paths, fs f.path ≠ Except.error ReadErr.decodeFailure) :
    find_file_reference ref_path root paths item_path keyword fs
      = Except.ok (findFileRefSpec ref_path root paths item_path keyword fs) :=
  fileRefLoop_spec (normpath (joinPath root ref_path)) item_path keyword fs paths h

/-- Witness for C8: a concrete corpus and keyword query on which the
embedded resolver and the spec description coincide. -/
theorem c8_witness :
    find_file_reference "a.txt" "/r" [⟨"/r/a.txt", "a.txt", "a.txt"⟩] "/r/i.txt"
      (some "k") (fun q => if q = "/r/a.txt" then Except.ok ["k"] else Except.ok [])
      = Except.ok (findFileRefSpec "a.txt" "/r" [⟨"/r/a.txt", "a.txt", "a.txt"⟩]
          "/r/i.txt" (some "k")
          (fun q => if q = "/r/a.txt" then Except.ok ["k"] else Except.ok [])) :=
  c8 "a.txt" "/r" "/r/i.txt" (some "k")
    (fun q => if q = "/r/a.txt" then Except.ok ["k"] else Except.ok [])
    [⟨"/r/a.txt", "a.txt", "a.txt"⟩] (by decide)

end Doorstop
